import Mathlib

/-!
# FlexLayoutCore storage records

A shallow embedding of `Sources/FlexLayoutCore/include/FlexLayoutCore.h`:
the three bit-field records `FlexNodeStorage`, `FlexLayoutStorage`,
`FlexStyleStorage` and the self-addressed global `FLEX_LAYOUT_KEY`.

The header declares data only.  The operations on the records are the ones
the C language gives a bit-field member: reading it, and assigning an integer
to it.  An assignment converts the value to the member's type:

* a member `uint8_t f : w` holds an unsigned integer of `w` bits, so the
  assigned value is reduced modulo `2 ^ w`;
* a member `bool f : 1` holds a `bool`, so the assigned value is first
  converted to `bool`: zero becomes `false`, every other value `true`.

Integer arguments are modelled by `Int`; the value a read produces by `Nat`.
-/

namespace FlexLayoutCore

/-! ## Member types -/

/-- The value an unsigned bit-field of width `w` holds after the integer `v`
is assigned to it: `v` reduced modulo `2 ^ w`. -/
def storeUnsigned (w : Nat) (v : Int) : Fin (2 ^ w) :=
  ⟨(v % (2 : Int) ^ w).toNat, by
    have hpos : (0 : Int) < (2 : Int) ^ w := by positivity
    have h0 : 0 ≤ v % (2 : Int) ^ w := Int.emod_nonneg v (ne_of_gt hpos)
    have h1 : v % (2 : Int) ^ w < (2 : Int) ^ w := Int.emod_lt_of_pos v hpos
    zify
    rw [Int.toNat_of_nonneg h0]
    exact_mod_cast h1⟩

/-- The value a `bool` bit-field holds after the integer `v` is assigned to
it: the conversion of `v` to `bool`. -/
def storeBool (v : Int) : Bool :=
  decide (v ≠ 0)

/-- The integer a `bool` member reads as: `false` is 0, `true` is 1. -/
def loadBool (b : Bool) : Nat :=
  if b then 1 else 0

/-! ## FlexNodeStorage -/

/-- The record `struct FlexNodeStorage`. -/
structure FlexNodeStorage where
  /-- Member `bool hasNewLayout: 1`. -/
  hasNewLayout : Bool
  /-- Member `uint8_t nodeType: 1`. -/
  nodeType : Fin (2 ^ 1)
  /-- Member `bool isReferenceBaseline: 1`. -/
  isReferenceBaseline : Bool
  /-- Member `bool isDirty: 1`. -/
  isDirty : Bool
  deriving DecidableEq, Repr

/-- The members of `FlexNodeStorage`, in declaration order. -/
inductive NodeField where
  | hasNewLayout
  | nodeType
  | isReferenceBaseline
  | isDirty
  deriving DecidableEq, Repr

/-- Declared bit width of a member of `FlexNodeStorage`. -/
def NodeField.width : NodeField → Nat
  | .hasNewLayout => 1
  | .nodeType => 1
  | .isReferenceBaseline => 1
  | .isDirty => 1

/-- Whether the member is declared with type `bool` (otherwise `uint8_t`). -/
def NodeField.isBool : NodeField → Bool
  | .hasNewLayout => true
  | .nodeType => false
  | .isReferenceBaseline => true
  | .isDirty => true

/-- Reading a member of a `FlexNodeStorage`. -/
def FlexNodeStorage.read (s : FlexNodeStorage) : NodeField → Nat
  | .hasNewLayout => loadBool s.hasNewLayout
  | .nodeType => s.nodeType.val
  | .isReferenceBaseline => loadBool s.isReferenceBaseline
  | .isDirty => loadBool s.isDirty

/-- Assigning the integer `v` to a member of a `FlexNodeStorage`. -/
def FlexNodeStorage.write (s : FlexNodeStorage) (f : NodeField) (v : Int) :
    FlexNodeStorage :=
  match f with
  | .hasNewLayout => { s with hasNewLayout := storeBool v }
  | .nodeType => { s with nodeType := storeUnsigned 1 v }
  | .isReferenceBaseline => { s with isReferenceBaseline := storeBool v }
  | .isDirty => { s with isDirty := storeBool v }

/-! ## FlexLayoutStorage -/

/-- The record `struct FlexLayoutStorage`. -/
structure FlexLayoutStorage where
  /-- Member `uint8_t direction: 2`. -/
  direction : Fin (2 ^ 2)
  /-- Member `bool hasOverflow: 1`. -/
  hasOverflow : Bool
  deriving DecidableEq, Repr

/-- The members of `FlexLayoutStorage`, in declaration order. -/
inductive LayoutField where
  | direction
  | hasOverflow
  deriving DecidableEq, Repr

/-- Declared bit width of a member of `FlexLayoutStorage`. -/
def LayoutField.width : LayoutField → Nat
  | .direction => 2
  | .hasOverflow => 1

/-- Whether the member is declared with type `bool` (otherwise `uint8_t`). -/
def LayoutField.isBool : LayoutField → Bool
  | .direction => false
  | .hasOverflow => true

/-- Reading a member of a `FlexLayoutStorage`. -/
def FlexLayoutStorage.read (s : FlexLayoutStorage) : LayoutField → Nat
  | .direction => s.direction.val
  | .hasOverflow => loadBool s.hasOverflow

/-- Assigning the integer `v` to a member of a `FlexLayoutStorage`. -/
def FlexLayoutStorage.write (s : FlexLayoutStorage) (f : LayoutField) (v : Int) :
    FlexLayoutStorage :=
  match f with
  | .direction => { s with direction := storeUnsigned 2 v }
  | .hasOverflow => { s with hasOverflow := storeBool v }

/-! ## FlexStyleStorage -/

/-- The record `struct FlexStyleStorage`. -/
structure FlexStyleStorage where
  /-- Member `uint8_t direction: 2`. -/
  direction : Fin (2 ^ 2)
  /-- Member `uint8_t flexDirection: 2`. -/
  flexDirection : Fin (2 ^ 2)
  /-- Member `uint8_t justifyContent: 3`. -/
  justifyContent : Fin (2 ^ 3)
  /-- Member `uint8_t alignContent: 3`. -/
  alignContent : Fin (2 ^ 3)
  /-- Member `uint8_t alignItems: 3`. -/
  alignItems : Fin (2 ^ 3)
  /-- Member `uint8_t alignSelf: 3`. -/
  alignSelf : Fin (2 ^ 3)
  /-- Member `uint8_t positionType: 2`. -/
  positionType : Fin (2 ^ 2)
  /-- Member `uint8_t flexWrap: 2`. -/
  flexWrap : Fin (2 ^ 2)
  /-- Member `uint8_t overflow: 2`. -/
  overflow : Fin (2 ^ 2)
  /-- Member `uint8_t display: 2`. -/
  display : Fin (2 ^ 2)
  deriving DecidableEq, Repr

/-- The members of `FlexStyleStorage`, in declaration order. -/
inductive StyleField where
  | direction
  | flexDirection
  | justifyContent
  | alignContent
  | alignItems
  | alignSelf
  | positionType
  | flexWrap
  | overflow
  | display
  deriving DecidableEq, Repr

/-- Declared bit width of a member of `FlexStyleStorage`. -/
def StyleField.width : StyleField → Nat
  | .direction => 2
  | .flexDirection => 2
  | .justifyContent => 3
  | .alignContent => 3
  | .alignItems => 3
  | .alignSelf => 3
  | .positionType => 2
  | .flexWrap => 2
  | .overflow => 2
  | .display => 2

/-- Reading a member of a `FlexStyleStorage`. -/
def FlexStyleStorage.read (s : FlexStyleStorage) : StyleField → Nat
  | .direction => s.direction.val
  | .flexDirection => s.flexDirection.val
  | .justifyContent => s.justifyContent.val
  | .alignContent => s.alignContent.val
  | .alignItems => s.alignItems.val
  | .alignSelf => s.alignSelf.val
  | .positionType => s.positionType.val
  | .flexWrap => s.flexWrap.val
  | .overflow => s.overflow.val
  | .display => s.display.val

/-- Assigning the integer `v` to a member of a `FlexStyleStorage`. -/
def FlexStyleStorage.write (s : FlexStyleStorage) (f : StyleField) (v : Int) :
    FlexStyleStorage :=
  match f with
  | .direction => { s with direction := storeUnsigned 2 v }
  | .flexDirection => { s with flexDirection := storeUnsigned 2 v }
  | .justifyContent => { s with justifyContent := storeUnsigned 3 v }
  | .alignContent => { s with alignContent := storeUnsigned 3 v }
  | .alignItems => { s with alignItems := storeUnsigned 3 v }
  | .alignSelf => { s with alignSelf := storeUnsigned 3 v }
  | .positionType => { s with positionType := storeUnsigned 2 v }
  | .flexWrap => { s with flexWrap := storeUnsigned 2 v }
  | .overflow => { s with overflow := storeUnsigned 2 v }
  | .display => { s with display := storeUnsigned 2 v }

/-- The zero-initialised `FlexNodeStorage`. -/
def FlexNodeStorage.zero : FlexNodeStorage :=
  ⟨false, 0, false, false⟩

/-- The zero-initialised `FlexLayoutStorage`. -/
def FlexLayoutStorage.zero : FlexLayoutStorage :=
  ⟨0, false⟩

/-- The zero-initialised `FlexStyleStorage`. -/
def FlexStyleStorage.zero : FlexStyleStorage :=
  ⟨0, 0, 0, 0, 0, 0, 0, 0, 0, 0⟩

/-- The state reached from `s` by a finite sequence of member writes. -/
def FlexNodeStorage.writes (s : FlexNodeStorage) (ws : List (NodeField × Int)) :
    FlexNodeStorage :=
  ws.foldl (fun t p => t.write p.1 p.2) s

/-- The state reached from `s` by a finite sequence of member writes. -/
def FlexLayoutStorage.writes (s : FlexLayoutStorage) (ws : List (LayoutField × Int)) :
    FlexLayoutStorage :=
  ws.foldl (fun t p => t.write p.1 p.2) s

/-- The state reached from `s` by a finite sequence of member writes. -/
def FlexStyleStorage.writes (s : FlexStyleStorage) (ws : List (StyleField × Int)) :
    FlexStyleStorage :=
  ws.foldl (fun t p => t.write p.1 p.2) s

/-! ## The specification's data-model tables

These two tables per record follow the specification (sections 3.1 to 3.3),
not the header; they are what the declared widths are compared with. -/

/-- Width the specification's table gives a member of the node flags record. -/
def NodeField.specWidth : NodeField → Nat
  | .hasNewLayout => 1
  | .nodeType => 1
  | .isReferenceBaseline => 1
  | .isDirty => 1

/-- Number of states the specification assigns to a member of the node flags
record: two for each boolean and for `nodeType` (Default, Text). -/
def NodeField.specCardinality : NodeField → Nat
  | .hasNewLayout => 2
  | .nodeType => 2
  | .isReferenceBaseline => 2
  | .isDirty => 2

/-- Width the specification's table gives a member of the layout result record. -/
def LayoutField.specWidth : LayoutField → Nat
  | .direction => 2
  | .hasOverflow => 1

/-- Number of states the specification assigns to a member of the layout
result record: `direction` has Inherit, LTR, RTL. -/
def LayoutField.specCardinality : LayoutField → Nat
  | .direction => 3
  | .hasOverflow => 2

/-- Width the specification's table gives a member of the style record. -/
def StyleField.specWidth : StyleField → Nat
  | .direction => 2
  | .flexDirection => 2
  | .justifyContent => 3
  | .alignContent => 3
  | .alignItems => 3
  | .alignSelf => 3
  | .positionType => 2
  | .flexWrap => 2
  | .overflow => 2
  | .display => 2

/-- Number of states the specification assigns to a member of the style
record. -/
def StyleField.specCardinality : StyleField → Nat
  | .direction => 3
  | .flexDirection => 4
  | .justifyContent => 8
  | .alignContent => 8
  | .alignItems => 8
  | .alignSelf => 8
  | .positionType => 4
  | .flexWrap => 3
  | .overflow => 3
  | .display => 3

/-! ## FLEX_LAYOUT_KEY

`const void* FLEX_LAYOUT_KEY = &FLEX_LAYOUT_KEY;` declares one global
variable of pointer type whose initialiser is the variable's own address.
The `const` qualifies the pointee (`const void`), not the variable, so the
variable is an ordinary assignable pointer. -/

/-- The objects of a program that includes the header: the global variable
`FLEX_LAYOUT_KEY`, and every other object. -/
inductive Obj where
  | FLEX_LAYOUT_KEY
  | other (id : Nat)
  deriving DecidableEq, Repr

/-- An assignment of addresses to the objects of the program.  C gives
distinct objects distinct addresses. -/
structure AddressSpace where
  /-- The address of an object (`&x`). -/
  addressOf : Obj → Nat
  /-- Distinct objects have distinct addresses. -/
  distinct : ∀ a b, addressOf a = addressOf b → a = b

/-- The content of the variable `FLEX_LAYOUT_KEY`: `some p` when it holds
the pointer `p`, `none` for a variable that holds no initialised value. -/
abbrev KeyState := Option Nat

/-- The state of the variable when the program starts: it has static storage
and the initialiser `&FLEX_LAYOUT_KEY`, an address constant. -/
def FLEX_LAYOUT_KEY (m : AddressSpace) : KeyState :=
  some (m.addressOf Obj.FLEX_LAYOUT_KEY)

/-- What the declared type lets a program do with the variable: read it, or
assign a pointer to it. -/
inductive KeyOp where
  | read
  | assign (p : Nat)
  deriving DecidableEq, Repr

/-- The values the reads of a sequence of operations observe, in order,
when the variable starts in state `k`. -/
def observations : KeyState → List KeyOp → List (Option Nat)
  | _, [] => []
  | k, KeyOp.read :: ops => k :: observations k ops
  | _, KeyOp.assign p :: ops => observations (some p) ops

/-- A concrete address space: the key at address 16, object `other n` at
address `17 + n`. -/
def sampleSpace : AddressSpace where
  addressOf := fun o =>
    match o with
    | Obj.FLEX_LAYOUT_KEY => 16
    | Obj.other n => 17 + n
  distinct := by
    intro a b h
    cases a <;> cases b <;> simp at h ⊢ <;> omega

/-! ## Layout of the bit-fields in storage units

The header fixes the order and the widths of the members; where the bits go
is the compiler's business.  The rule below is the usual one for bit-fields
whose declared type is one byte wide (`uint8_t`, `bool`): members are
allocated in declaration order, each right after the previous one, except
that a member that would cross the boundary of an 8-bit storage unit starts
the next unit instead. -/

/-- The members of `FlexNodeStorage` in declaration order. -/
def NodeField.all : List NodeField :=
  [.hasNewLayout, .nodeType, .isReferenceBaseline, .isDirty]

/-- The members of `FlexLayoutStorage` in declaration order. -/
def LayoutField.all : List LayoutField :=
  [.direction, .hasOverflow]

/-- The members of `FlexStyleStorage` in declaration order. -/
def StyleField.all : List StyleField :=
  [.direction, .flexDirection, .justifyContent, .alignContent, .alignItems, .alignSelf,
   .positionType, .flexWrap, .overflow, .display]

/-- The declared widths of `FlexNodeStorage`, in declaration order. -/
def nodeWidths : List Nat :=
  NodeField.all.map NodeField.width

/-- The declared widths of `FlexLayoutStorage`, in declaration order. -/
def layoutWidths : List Nat :=
  LayoutField.all.map LayoutField.width

/-- The declared widths of `FlexStyleStorage`, in declaration order. -/
def styleWidths : List Nat :=
  StyleField.all.map StyleField.width

/-- Number of bits in one `uint8_t` storage unit. -/
def unitBits : Nat := 8

/-- The place of one bit-field: the storage unit it lies in, its first bit
within that unit, and its width. -/
structure Slot where
  /-- Index of the storage unit. -/
  index : Nat
  /-- First bit of the member within the unit. -/
  offset : Nat
  /-- Width of the member in bits. -/
  width : Nat
  deriving DecidableEq, Repr

/-- The place of a member of width `w` that follows the member placed at
`prev` (`none` for the first member): right after it when it fits in the
same unit, at the start of the next unit otherwise. -/
def nextSlot (prev : Option Slot) (w : Nat) : Slot :=
  match prev with
  | none => ⟨0, 0, w⟩
  | some p =>
    if p.offset + p.width + w ≤ unitBits then ⟨p.index, p.offset + p.width, w⟩
    else ⟨p.index + 1, 0, w⟩

/-- The places of the members of widths `ws`, laid out in order after `prev`. -/
def packFrom (prev : Option Slot) : List Nat → List Slot
  | [] => []
  | w :: ws => nextSlot prev w :: packFrom (some (nextSlot prev w)) ws

/-- The places of the members of a record whose widths, in declaration
order, are `ws`. -/
def pack (ws : List Nat) : List Slot :=
  packFrom none ws

/-- The number of storage units a record with member widths `ws` occupies:
one more than the index of the unit its last member lies in. -/
def unitsOccupied (ws : List Nat) : Nat :=
  match (pack ws).getLast? with
  | none => 0
  | some s => s.index + 1

/-- The number of storage units that `n` bits would fill with no padding. -/
def unitsFilled (n : Nat) : Nat :=
  (n + unitBits - 1) / unitBits

/-! ## Basic facts about the member conversions -/

theorem storeUnsigned_val (w : Nat) (v : Int) :
    ((storeUnsigned w v).val : Int) = v % (2 : Int) ^ w := by
  have hpos : (0 : Int) < (2 : Int) ^ w := by positivity
  have h0 : 0 ≤ v % (2 : Int) ^ w := Int.emod_nonneg v (ne_of_gt hpos)
  simp only [storeUnsigned]
  exact Int.toNat_of_nonneg h0

theorem loadBool_storeBool (v : Int) :
    loadBool (storeBool v) = if v = 0 then 0 else 1 := by
  by_cases h : v = 0 <;> simp [loadBool, storeBool, h]

theorem loadBool_lt (b : Bool) : loadBool b < 2 ^ 1 := by
  cases b <;> decide

/-! ## What a write does to the member written, and to the others -/

theorem node_read_write_same (s : FlexNodeStorage) (f : NodeField) (v : Int) :
    ((s.write f v).read f : Int) =
      if f.isBool then (if v = 0 then 0 else 1) else v % (2 : Int) ^ f.width := by
  cases f <;>
    simp [FlexNodeStorage.write, FlexNodeStorage.read, NodeField.isBool, NodeField.width,
      loadBool_storeBool, storeUnsigned_val]

theorem layout_read_write_same (s : FlexLayoutStorage) (f : LayoutField) (v : Int) :
    ((s.write f v).read f : Int) =
      if f.isBool then (if v = 0 then 0 else 1) else v % (2 : Int) ^ f.width := by
  cases f <;>
    simp [FlexLayoutStorage.write, FlexLayoutStorage.read, LayoutField.isBool,
      LayoutField.width, loadBool_storeBool, storeUnsigned_val]

theorem style_read_write_same (s : FlexStyleStorage) (f : StyleField) (v : Int) :
    ((s.write f v).read f : Int) = v % (2 : Int) ^ f.width := by
  cases f <;>
    simp [FlexStyleStorage.write, FlexStyleStorage.read, StyleField.width, storeUnsigned_val]

theorem node_read_write_other (s : FlexNodeStorage) (f g : NodeField) (v : Int)
    (h : g ≠ f) : (s.write f v).read g = s.read g := by
  cases f <;> cases g <;> first | exact absurd rfl h | rfl

theorem layout_read_write_other (s : FlexLayoutStorage) (f g : LayoutField)
    (v : Int) (h : g ≠ f) : (s.write f v).read g = s.read g := by
  cases f <;> cases g <;> first | exact absurd rfl h | rfl

theorem style_read_write_other (s : FlexStyleStorage) (f g : StyleField) (v : Int)
    (h : g ≠ f) : (s.write f v).read g = s.read g := by
  cases f <;> cases g <;> first | exact absurd rfl h | rfl

theorem node_read_lt (s : FlexNodeStorage) (f : NodeField) :
    s.read f < 2 ^ f.width := by
  cases f <;> simp only [FlexNodeStorage.read, NodeField.width] <;>
    first | exact loadBool_lt _ | exact Fin.isLt _

theorem layout_read_lt (s : FlexLayoutStorage) (f : LayoutField) :
    s.read f < 2 ^ f.width := by
  cases f <;> simp only [FlexLayoutStorage.read, LayoutField.width] <;>
    first | exact loadBool_lt _ | exact Fin.isLt _

theorem style_read_lt (s : FlexStyleStorage) (f : StyleField) :
    s.read f < 2 ^ f.width := by
  cases f <;> simp only [FlexStyleStorage.read, StyleField.width] <;> exact Fin.isLt _

theorem node_read_write_in_range (s : FlexNodeStorage) (f : NodeField) (v : Int)
    (h0 : 0 ≤ v) (h1 : v < (2 : Int) ^ f.width) : ((s.write f v).read f : Int) = v := by
  rw [node_read_write_same]
  cases f <;> simp only [NodeField.isBool, NodeField.width] at h1 ⊢
  all_goals first
    | (simp only [if_true]; split <;> omega)
    | (simp only [Bool.false_eq_true, if_false]; exact Int.emod_eq_of_lt h0 h1)

theorem layout_read_write_in_range (s : FlexLayoutStorage) (f : LayoutField)
    (v : Int) (h0 : 0 ≤ v) (h1 : v < (2 : Int) ^ f.width) :
    ((s.write f v).read f : Int) = v := by
  rw [layout_read_write_same]
  cases f <;> simp only [LayoutField.isBool, LayoutField.width] at h1 ⊢
  all_goals first
    | (simp only [if_true]; split <;> omega)
    | (simp only [Bool.false_eq_true, if_false]; exact Int.emod_eq_of_lt h0 h1)

theorem style_read_write_in_range (s : FlexStyleStorage) (f : StyleField) (v : Int)
    (h0 : 0 ≤ v) (h1 : v < (2 : Int) ^ f.width) : ((s.write f v).read f : Int) = v := by
  rw [style_read_write_same]
  exact Int.emod_eq_of_lt h0 h1

/-! ## The key variable under reads and assignments -/

theorem observations_ne_none (ops : List KeyOp) :
    ∀ k : KeyState, k ≠ none → ∀ x ∈ observations k ops, x ≠ none := by
  induction ops with
  | nil =>
    intro k _ x hx
    simp [observations] at hx
  | cons op rest ih =>
    intro k hk x hx
    cases op with
    | read =>
      simp only [observations, List.mem_cons] at hx
      rcases hx with hx | hx
      · rw [hx]; exact hk
      · exact ih k hk x hx
    | assign p =>
      simp only [observations] at hx
      exact ih (some p) (by simp) x hx

theorem observations_reads_only (ops : List KeyOp) :
    ∀ k : KeyState, (∀ op ∈ ops, op = KeyOp.read) → ∀ x ∈ observations k ops, x = k := by
  induction ops with
  | nil =>
    intro k _ x hx
    simp [observations] at hx
  | cons op rest ih =>
    intro k hops x hx
    have hop : op = KeyOp.read := hops op (List.mem_cons_self _ _)
    subst hop
    simp only [observations, List.mem_cons] at hx
    rcases hx with hx | hx
    · exact hx
    · exact ih k (fun o ho => hops o (List.mem_cons_of_mem _ ho)) x hx

/-! ## Round trip and out-of-range stores -/

/-- C1. Round trip within the declared width: for every member `f` of each of
the three records, of declared width `w`, and every integer `v` with
`0 ≤ v < 2 ^ w`, writing `v` to `f` and then reading `f` gives exactly `v`. -/
theorem round_trip_within_width :
    (∀ (s : FlexNodeStorage) (f : NodeField) (v : Int),
        0 ≤ v → v < (2 : Int) ^ f.width → ((s.write f v).read f : Int) = v) ∧
    (∀ (s : FlexLayoutStorage) (f : LayoutField) (v : Int),
        0 ≤ v → v < (2 : Int) ^ f.width → ((s.write f v).read f : Int) = v) ∧
    (∀ (s : FlexStyleStorage) (f : StyleField) (v : Int),
        0 ≤ v → v < (2 : Int) ^ f.width → ((s.write f v).read f : Int) = v) := by
  exact ⟨node_read_write_in_range, layout_read_write_in_range,
    style_read_write_in_range⟩

/-- Witness for C1: the value 5 written to the 3-bit `alignSelf`, 1 written to
the `bool` member `isDirty`, and 3 written to the 2-bit resolved `direction`
all read back unchanged. -/
theorem round_trip_within_width_witness :
    ((FlexNodeStorage.zero.write NodeField.isDirty 1).read NodeField.isDirty : Int) = 1 ∧
    ((FlexLayoutStorage.zero.write LayoutField.direction 3).read LayoutField.direction : Int)
      = 3 ∧
    ((FlexStyleStorage.zero.write StyleField.alignSelf 5).read StyleField.alignSelf : Int)
      = 5 :=
  ⟨round_trip_within_width.1 FlexNodeStorage.zero NodeField.isDirty 1 (by decide) (by decide),
   round_trip_within_width.2.1 FlexLayoutStorage.zero LayoutField.direction 3
     (by decide) (by decide),
   round_trip_within_width.2.2 FlexStyleStorage.zero StyleField.alignSelf 5
     (by decide) (by decide)⟩

/-- Counterexample to C2 as stated: 2 is the smallest out-of-range value of
the 1-bit `bool` member `hasNewLayout`, and `2 mod 2 ^ 1 = 0`, yet after 2 is
written the member reads 1, not 0: the conversion to `bool` maps every
non-zero value to `true`. -/
theorem bool_member_store_two_reads_one :
    (2 : Int) = (2 : Int) ^ NodeField.hasNewLayout.width ∧
    (2 : Int) % (2 : Int) ^ NodeField.hasNewLayout.width = 0 ∧
    (FlexNodeStorage.zero.write NodeField.hasNewLayout 2).read NodeField.hasNewLayout = 1 ∧
    (FlexNodeStorage.zero.write NodeField.hasNewLayout 2).read NodeField.hasNewLayout ≠ 0 := by
  decide

/-- C2, amended. The out-of-range policy follows the member's type.  Every
`uint8_t` member of the three records, of declared width `w`, reads `v mod 2 ^ w`
after any integer `v` is written, so it reads 0 after `2 ^ w` is written.  Every
`bool` member reads 1 after any non-zero `v` is written, so it reads 1 after
`2 ^ 1 = 2` is written. -/
theorem out_of_range_store_policy :
    (∀ (s : FlexNodeStorage) (f : NodeField) (v : Int),
        (f.isBool = false →
          ((s.write f v).read f : Int) = v % (2 : Int) ^ f.width ∧
          (s.write f ((2 : Int) ^ f.width)).read f = 0) ∧
        (f.isBool = true →
          (v ≠ 0 → (s.write f v).read f = 1) ∧
          (s.write f ((2 : Int) ^ f.width)).read f = 1)) ∧
    (∀ (s : FlexLayoutStorage) (f : LayoutField) (v : Int),
        (f.isBool = false →
          ((s.write f v).read f : Int) = v % (2 : Int) ^ f.width ∧
          (s.write f ((2 : Int) ^ f.width)).read f = 0) ∧
        (f.isBool = true →
          (v ≠ 0 → (s.write f v).read f = 1) ∧
          (s.write f ((2 : Int) ^ f.width)).read f = 1)) ∧
    (∀ (s : FlexStyleStorage) (f : StyleField) (v : Int),
        ((s.write f v).read f : Int) = v % (2 : Int) ^ f.width ∧
        (s.write f ((2 : Int) ^ f.width)).read f = 0) := by
  refine ⟨?_, ?_, ?_⟩
  · intro s f v
    have hv := node_read_write_same s f v
    have hp := node_read_write_same s f ((2 : Int) ^ f.width)
    constructor
    · intro hb
      rw [hb] at hv hp
      simp only [Bool.false_eq_true, if_false, Int.emod_self] at hv hp
      exact ⟨hv, by exact_mod_cast hp⟩
    · intro hb
      rw [hb] at hv hp
      have hne : (2 : Int) ^ f.width ≠ 0 := by positivity
      simp only [if_true, hne, if_false] at hv hp
      refine ⟨?_, by exact_mod_cast hp⟩
      intro hv0
      rw [if_neg hv0] at hv
      exact_mod_cast hv
  · intro s f v
    have hv := layout_read_write_same s f v
    have hp := layout_read_write_same s f ((2 : Int) ^ f.width)
    constructor
    · intro hb
      rw [hb] at hv hp
      simp only [Bool.false_eq_true, if_false, Int.emod_self] at hv hp
      exact ⟨hv, by exact_mod_cast hp⟩
    · intro hb
      rw [hb] at hv hp
      have hne : (2 : Int) ^ f.width ≠ 0 := by positivity
      simp only [if_true, hne, if_false] at hv hp
      refine ⟨?_, by exact_mod_cast hp⟩
      intro hv0
      rw [if_neg hv0] at hv
      exact_mod_cast hv
  · intro s f v
    have hv := style_read_write_same s f v
    have hp := style_read_write_same s f ((2 : Int) ^ f.width)
    rw [Int.emod_self] at hp
    exact ⟨hv, by exact_mod_cast hp⟩

/-- Witness for the amended C2: writing `2 ^ 2 = 4` to the `uint8_t` member
`direction` of the layout record reads 0, and writing `2 ^ 1 = 2` to its `bool`
member `hasOverflow` reads 1. -/
theorem out_of_range_store_policy_witness :
    (FlexLayoutStorage.zero.write LayoutField.direction
        ((2 : Int) ^ LayoutField.direction.width)).read LayoutField.direction = 0 ∧
    (FlexLayoutStorage.zero.write LayoutField.hasOverflow
        ((2 : Int) ^ LayoutField.hasOverflow.width)).read LayoutField.hasOverflow = 1 :=
  ⟨((out_of_range_store_policy.2.1 FlexLayoutStorage.zero LayoutField.direction 4).1 rfl).2,
   ((out_of_range_store_policy.2.1 FlexLayoutStorage.zero LayoutField.hasOverflow 2).2 rfl).2⟩

/-! ## Style writes are unchecked -/

/-- Counterexample to C3 as stated: 9 is out of range for the 3-bit
`alignSelf`, yet the write goes through, and the member, which read 0 before,
afterwards reads 1, the low three bits of 9. -/
theorem style_write_truncates_alignSelf :
    (2 : Int) ^ StyleField.alignSelf.width ≤ 9 ∧
    FlexStyleStorage.zero.read StyleField.alignSelf = 0 ∧
    (FlexStyleStorage.zero.write StyleField.alignSelf 9).read StyleField.alignSelf = 1 ∧
    (9 : Int) % (2 : Int) ^ StyleField.alignSelf.width = 1 := by
  decide

/-- C3, amended. Writes to the style record are unchecked: for every member
`f` of `FlexStyleStorage`, of declared width `w`, and every integer `v`, the
write yields a record in which `f` reads `v mod 2 ^ w`.  The value read is `v`
itself if and only if `0 ≤ v < 2 ^ w`; a value `v ≥ 2 ^ w` is stored as its low
`w` bits, which differ from `v`. -/
theorem style_write_unchecked (s : FlexStyleStorage) (f : StyleField) (v : Int) :
    ((s.write f v).read f : Int) = v % (2 : Int) ^ f.width ∧
    (((s.write f v).read f : Int) = v ↔ (0 ≤ v ∧ v < (2 : Int) ^ f.width)) ∧
    ((2 : Int) ^ f.width ≤ v → ((s.write f v).read f : Int) ≠ v) := by
  have hrw := style_read_write_same s f v
  have hlt : ((s.write f v).read f : Int) < (2 : Int) ^ f.width := by
    exact_mod_cast style_read_lt (s.write f v) f
  have hnn : (0 : Int) ≤ ((s.write f v).read f : Int) := Int.ofNat_nonneg _
  refine ⟨hrw, ⟨?_, ?_⟩, ?_⟩
  · intro h
    rw [h] at hlt hnn
    exact ⟨hnn, hlt⟩
  · intro h
    rw [hrw]
    exact Int.emod_eq_of_lt h.1 h.2
  · intro h heq
    rw [heq] at hlt
    omega

/-- Witness for the amended C3: 9 written to the 3-bit `alignSelf` of the zero
record is read back as `9 mod 8`, not as 9. -/
theorem style_write_unchecked_witness :
    (((FlexStyleStorage.zero.write StyleField.alignSelf 9).read StyleField.alignSelf : Nat)
        : Int) = 9 % (2 : Int) ^ StyleField.alignSelf.width ∧
    (((FlexStyleStorage.zero.write StyleField.alignSelf 9).read StyleField.alignSelf : Nat)
        : Int) ≠ 9 :=
  ⟨(style_write_unchecked FlexStyleStorage.zero StyleField.alignSelf 9).1,
   (style_write_unchecked FlexStyleStorage.zero StyleField.alignSelf 9).2.2 (by decide)⟩

/-- Counterexample to C4 as stated: in the zero style record `alignSelf` reads
0; after the out-of-range value 9 is written to it, it reads 1, so the prior
value did not remain. -/
theorem out_of_range_write_changes_alignSelf :
    (7 : Int) < 9 ∧
    (FlexStyleStorage.zero.write StyleField.alignSelf 9).read StyleField.alignSelf ≠
      FlexStyleStorage.zero.read StyleField.alignSelf := by
  decide

/-- C4, amended. An out-of-range write to a style member touches that member
only: for every `FlexStyleStorage` record `s`, every member `f` and every
`v ≥ 2 ^ width f`, writing `v` to `f` leaves every other member of `s` reading
what it read before, while `f` itself reads `v mod 2 ^ width f` afterwards
(which need not be its prior value). -/
theorem out_of_range_style_write_frame (s : FlexStyleStorage) (f : StyleField) (v : Int)
    (hv : (2 : Int) ^ f.width ≤ v) :
    (∀ g : StyleField, g ≠ f → (s.write f v).read g = s.read g) ∧
    ((s.write f v).read f : Int) = v % (2 : Int) ^ f.width ∧
    ((s.write f v).read f : Int) ≠ v := by
  refine ⟨fun g hg => style_read_write_other s f g v hg,
    style_read_write_same s f v, ?_⟩
  intro heq
  have hlt : ((s.write f v).read f : Int) < (2 : Int) ^ f.width := by
    exact_mod_cast style_read_lt (s.write f v) f
  rw [heq] at hlt
  omega

/-- Witness for the amended C4: the out-of-range value 9 written to `alignSelf`
of a record whose `justifyContent` is 2. -/
theorem out_of_range_style_write_frame_witness :
    (2 : Int) ^ StyleField.alignSelf.width ≤ 9 ∧
    (∀ g : StyleField, g ≠ StyleField.alignSelf →
      ((FlexStyleStorage.zero.write StyleField.justifyContent 2).write
          StyleField.alignSelf 9).read g =
        (FlexStyleStorage.zero.write StyleField.justifyContent 2).read g) ∧
    ((((FlexStyleStorage.zero.write StyleField.justifyContent 2).write
          StyleField.alignSelf 9).read StyleField.alignSelf : Nat) : Int) =
        9 % (2 : Int) ^ StyleField.alignSelf.width ∧
    ((((FlexStyleStorage.zero.write StyleField.justifyContent 2).write
          StyleField.alignSelf 9).read StyleField.alignSelf : Nat) : Int) ≠ 9 :=
  ⟨by decide,
   out_of_range_style_write_frame (FlexStyleStorage.zero.write StyleField.justifyContent 2)
     StyleField.alignSelf 9 (by decide)⟩

/-! ## Width invariant and frame -/

/-- C5. Width invariant: in every state of each of the three records reached
from any initial record by any finite sequence of member writes with arbitrary
integer arguments, every member `f` reads a value `x` with
`0 ≤ x < 2 ^ width f`. -/
theorem width_invariant :
    (∀ (s : FlexNodeStorage) (ws : List (NodeField × Int)) (f : NodeField),
        0 ≤ ((s.writes ws).read f : Int) ∧ (s.writes ws).read f < 2 ^ f.width) ∧
    (∀ (s : FlexLayoutStorage) (ws : List (LayoutField × Int)) (f : LayoutField),
        0 ≤ ((s.writes ws).read f : Int) ∧ (s.writes ws).read f < 2 ^ f.width) ∧
    (∀ (s : FlexStyleStorage) (ws : List (StyleField × Int)) (f : StyleField),
        0 ≤ ((s.writes ws).read f : Int) ∧ (s.writes ws).read f < 2 ^ f.width) :=
  ⟨fun s ws f => ⟨Int.ofNat_nonneg _, node_read_lt (s.writes ws) f⟩,
   fun s ws f => ⟨Int.ofNat_nonneg _, layout_read_lt (s.writes ws) f⟩,
   fun s ws f => ⟨Int.ofNat_nonneg _, style_read_lt (s.writes ws) f⟩⟩

/-- C6. A member write changes only that member: for every record of the
three types, every member `f` and every integer `v`, writing `v` to `f` leaves
every other member reading what it read before.  Scenario: from the all-zero
`FlexStyleStorage`, writing `flexDirection = 1` and then `justifyContent = 2`
gives `flexDirection = 1`, `justifyContent = 2`, and every other member 0. -/
theorem write_changes_only_that_member :
    (∀ (s : FlexNodeStorage) (f g : NodeField) (v : Int),
        g ≠ f → (s.write f v).read g = s.read g) ∧
    (∀ (s : FlexLayoutStorage) (f g : LayoutField) (v : Int),
        g ≠ f → (s.write f v).read g = s.read g) ∧
    (∀ (s : FlexStyleStorage) (f g : StyleField) (v : Int),
        g ≠ f → (s.write f v).read g = s.read g) ∧
    (∀ g : StyleField,
        ((FlexStyleStorage.zero.write StyleField.flexDirection 1).write
            StyleField.justifyContent 2).read g =
          if g = StyleField.flexDirection then 1
          else if g = StyleField.justifyContent then 2
          else 0) := by
  refine ⟨node_read_write_other, layout_read_write_other,
    style_read_write_other, ?_⟩
  intro g
  cases g <;> decide

/-- Witness for C6: after `isDirty` of a node record is written, its
`hasNewLayout` reads what it read before; after `flexDirection = 1` and
`justifyContent = 2` are written to the zero style record, `alignSelf` reads 0. -/
theorem write_changes_only_that_member_witness :
    ((FlexNodeStorage.zero.write NodeField.hasNewLayout 1).write
        NodeField.isDirty 1).read NodeField.hasNewLayout =
      (FlexNodeStorage.zero.write NodeField.hasNewLayout 1).read NodeField.hasNewLayout ∧
    ((FlexStyleStorage.zero.write StyleField.flexDirection 1).write
        StyleField.justifyContent 2).read StyleField.alignSelf = 0 :=
  ⟨write_changes_only_that_member.1 (FlexNodeStorage.zero.write NodeField.hasNewLayout 1)
     NodeField.isDirty NodeField.hasNewLayout 1 (by decide),
   write_changes_only_that_member.2.2.2 StyleField.alignSelf⟩

/-! ## Declared widths against the specification's tables -/

/-- C7. Every member uses the fewest bits that hold its enumeration: for every
member of the three records, the width declared in the header equals the width
in the specification's table and is the least `w` with `cardinality ≤ 2 ^ w`,
where the cardinality is the number of states the specification assigns to the
member.  Consequently two distinct members of a field's enumeration (two
distinct values below the cardinality) are never stored as the same value. -/
theorem widths_are_minimal :
    (∀ f : NodeField,
        f.width = f.specWidth ∧ f.specCardinality ≤ 2 ^ f.width ∧
        (∀ w : Nat, f.specCardinality ≤ 2 ^ w → f.width ≤ w) ∧
        (∀ (s : FlexNodeStorage) (a b : Nat), a < f.specCardinality → b < f.specCardinality →
          (s.write f a).read f = (s.write f b).read f → a = b)) ∧
    (∀ f : LayoutField,
        f.width = f.specWidth ∧ f.specCardinality ≤ 2 ^ f.width ∧
        (∀ w : Nat, f.specCardinality ≤ 2 ^ w → f.width ≤ w) ∧
        (∀ (s : FlexLayoutStorage) (a b : Nat), a < f.specCardinality →
          b < f.specCardinality →
          (s.write f a).read f = (s.write f b).read f → a = b)) ∧
    (∀ f : StyleField,
        f.width = f.specWidth ∧ f.specCardinality ≤ 2 ^ f.width ∧
        (∀ w : Nat, f.specCardinality ≤ 2 ^ w → f.width ≤ w) ∧
        (∀ (s : FlexStyleStorage) (a b : Nat), a < f.specCardinality → b < f.specCardinality →
          (s.write f a).read f = (s.write f b).read f → a = b)) := by
  refine ⟨?_, ?_, ?_⟩
  · intro f
    have hcard : f.specCardinality ≤ 2 ^ f.width := by cases f <;> decide
    refine ⟨by cases f <;> rfl, hcard, ?_, ?_⟩
    · intro w hw
      by_contra hlt
      have hlt2 : w < f.width := Nat.lt_of_not_le hlt
      cases f <;> simp only [NodeField.width, NodeField.specCardinality] at hw hlt2 <;>
        interval_cases w <;> omega
    · intro s a b ha hb hab
      have h1 := node_read_write_in_range s f a (Int.ofNat_nonneg a)
        (by exact_mod_cast Nat.lt_of_lt_of_le ha hcard)
      have h2 := node_read_write_in_range s f b (Int.ofNat_nonneg b)
        (by exact_mod_cast Nat.lt_of_lt_of_le hb hcard)
      rw [hab] at h1
      exact_mod_cast h1.symm.trans h2
  · intro f
    have hcard : f.specCardinality ≤ 2 ^ f.width := by cases f <;> decide
    refine ⟨by cases f <;> rfl, hcard, ?_, ?_⟩
    · intro w hw
      by_contra hlt
      have hlt2 : w < f.width := Nat.lt_of_not_le hlt
      cases f <;> simp only [LayoutField.width, LayoutField.specCardinality] at hw hlt2 <;>
        interval_cases w <;> omega
    · intro s a b ha hb hab
      have h1 := layout_read_write_in_range s f a (Int.ofNat_nonneg a)
        (by exact_mod_cast Nat.lt_of_lt_of_le ha hcard)
      have h2 := layout_read_write_in_range s f b (Int.ofNat_nonneg b)
        (by exact_mod_cast Nat.lt_of_lt_of_le hb hcard)
      rw [hab] at h1
      exact_mod_cast h1.symm.trans h2
  · intro f
    have hcard : f.specCardinality ≤ 2 ^ f.width := by cases f <;> decide
    refine ⟨by cases f <;> rfl, hcard, ?_, ?_⟩
    · intro w hw
      by_contra hlt
      have hlt2 : w < f.width := Nat.lt_of_not_le hlt
      cases f <;> simp only [StyleField.width, StyleField.specCardinality] at hw hlt2 <;>
        interval_cases w <;> omega
    · intro s a b ha hb hab
      have h1 := style_read_write_in_range s f a (Int.ofNat_nonneg a)
        (by exact_mod_cast Nat.lt_of_lt_of_le ha hcard)
      have h2 := style_read_write_in_range s f b (Int.ofNat_nonneg b)
        (by exact_mod_cast Nat.lt_of_lt_of_le hb hcard)
      rw [hab] at h1
      exact_mod_cast h1.symm.trans h2

/-- Witness for C7: the style `direction` has 3 states; 1 bit holds only 2, so
a width that holds them is at least the declared 2; and the members 1 (LTR) and
2 (RTL) written to it read differently, so neither write gives what the other
gives. -/
theorem widths_are_minimal_witness :
    StyleField.direction.width ≤ 2 ∧
    ((FlexStyleStorage.zero.write StyleField.direction ((1 : Nat) : Int)).read
        StyleField.direction =
      (FlexStyleStorage.zero.write StyleField.direction ((2 : Nat) : Int)).read
        StyleField.direction → (1 : Nat) = 2) :=
  ⟨(widths_are_minimal.2.2 StyleField.direction).2.2.1 2 (by decide),
   (widths_are_minimal.2.2 StyleField.direction).2.2.2 FlexStyleStorage.zero 1 2
     (by decide) (by decide)⟩

/-! ## The identity key -/

theorem observations_append_assign (pre : List KeyOp) :
    ∀ (k : KeyState) (p : Nat) (post : List KeyOp),
      observations k (pre ++ KeyOp.assign p :: post) =
        observations k pre ++ observations (some p) post := by
  induction pre with
  | nil =>
    intro k p post
    simp [observations]
  | cons op rest ih =>
    intro k p post
    cases op with
    | read => simp [observations, ih]
    | assign q => simp [observations, ih]

theorem observations_reads_replicate (ops : List KeyOp) :
    ∀ k : KeyState, (∀ op ∈ ops, op = KeyOp.read) →
      observations k ops = List.replicate ops.length k := by
  induction ops with
  | nil =>
    intro k _
    simp [observations]
  | cons op rest ih =>
    intro k hops
    have hop : op = KeyOp.read := hops op (List.mem_cons_self _ _)
    subst hop
    have hrest := ih k (fun o ho => hops o (List.mem_cons_of_mem _ ho))
    simp [observations, hrest, List.replicate_succ]

theorem observations_replicate_append (n : Nat) (k : KeyState) (rest : List KeyOp) :
    observations k (List.replicate n KeyOp.read ++ rest) =
      List.replicate n k ++ observations k rest := by
  induction n with
  | zero => simp
  | succ i ih => simp [List.replicate_succ, observations, ih]

/-- Counterexample to C8 as stated: in the sample address space the sequence
read, assign 17, read is one the declaration permits; its two reads observe
16 and 17, which do not compare equal, and the second is the address of the
other object `other 0`. -/
theorem key_reads_differ_across_assignment :
    observations (FLEX_LAYOUT_KEY sampleSpace)
        [KeyOp.read, KeyOp.assign 17, KeyOp.read] = [some 16, some 17] ∧
    (some 16 : Option Nat) ≠ some 17 ∧
    (some 17 : Option Nat) = some (sampleSpace.addressOf (Obj.other 0)) ∧
    Obj.other 0 ≠ Obj.FLEX_LAYOUT_KEY := by
  decide

/-- C8, amended. The identity key is a self-addressed token that is stable
until the variable is assigned.  At program start the value of
`FLEX_LAYOUT_KEY` is the address of `FLEX_LAYOUT_KEY` itself; the reads a
program makes before any assignment to the variable (the first `n` reads of a
run that starts with `n` reads, whatever follows) all observe that value, so
any two of them compare equal; and that value compares unequal to the address
of every other object.  The variable is assignable: a read that directly
follows an assignment of `p`, anywhere in a run, observes `p` (which can be
the address of another object), and the reads before the assignment observe
what they observe without it. -/
theorem key_self_addressed_until_assigned (m : AddressSpace) (n : Nat)
    (rest pre : List KeyOp) (p : Nat) :
    FLEX_LAYOUT_KEY m = some (m.addressOf Obj.FLEX_LAYOUT_KEY) ∧
    (observations (FLEX_LAYOUT_KEY m) (List.replicate n KeyOp.read ++ rest)).take n =
      List.replicate n (some (m.addressOf Obj.FLEX_LAYOUT_KEY)) ∧
    (∀ x ∈ (observations (FLEX_LAYOUT_KEY m) (List.replicate n KeyOp.read ++ rest)).take n,
      ∀ y ∈ (observations (FLEX_LAYOUT_KEY m) (List.replicate n KeyOp.read ++ rest)).take n,
        x = y) ∧
    (∀ o : Obj, o ≠ Obj.FLEX_LAYOUT_KEY → FLEX_LAYOUT_KEY m ≠ some (m.addressOf o)) ∧
    observations (FLEX_LAYOUT_KEY m) (pre ++ [KeyOp.assign p, KeyOp.read]) =
      observations (FLEX_LAYOUT_KEY m) pre ++ [some p] := by
  have htake : (observations (FLEX_LAYOUT_KEY m) (List.replicate n KeyOp.read ++ rest)).take n =
      List.replicate n (some (m.addressOf Obj.FLEX_LAYOUT_KEY)) := by
    rw [observations_replicate_append]
    exact List.take_left' (List.length_replicate n _)
  refine ⟨rfl, htake, ?_, ?_, ?_⟩
  · intro x hx y hy
    rw [htake] at hx hy
    rw [List.eq_of_mem_replicate hx, List.eq_of_mem_replicate hy]
  · intro o ho heq
    simp only [FLEX_LAYOUT_KEY, Option.some.injEq] at heq
    exact ho (m.distinct _ _ heq).symm
  · rw [observations_append_assign]
    simp [observations]

/-- Witness for the amended C8: in the sample address space, in the run read,
read, assign 17, read, the first two reads observe 16, the key's own address;
the key differs from the address of `other 0`; and the read after the
assignment observes 17. -/
theorem key_self_addressed_until_assigned_witness :
    (observations (FLEX_LAYOUT_KEY sampleSpace)
        (List.replicate 2 KeyOp.read ++ [KeyOp.assign 17, KeyOp.read])).take 2 =
      List.replicate 2 (some (sampleSpace.addressOf Obj.FLEX_LAYOUT_KEY)) ∧
    FLEX_LAYOUT_KEY sampleSpace ≠ some (sampleSpace.addressOf (Obj.other 0)) ∧
    observations (FLEX_LAYOUT_KEY sampleSpace)
        ([KeyOp.read, KeyOp.read] ++ [KeyOp.assign 17, KeyOp.read]) =
      observations (FLEX_LAYOUT_KEY sampleSpace) [KeyOp.read, KeyOp.read] ++ [some 17] :=
  ⟨(key_self_addressed_until_assigned sampleSpace 2 [KeyOp.assign 17, KeyOp.read]
      [KeyOp.read, KeyOp.read] 17).2.1,
   (key_self_addressed_until_assigned sampleSpace 2 [KeyOp.assign 17, KeyOp.read]
      [KeyOp.read, KeyOp.read] 17).2.2.2.1 (Obj.other 0) (by decide),
   (key_self_addressed_until_assigned sampleSpace 2 [KeyOp.assign 17, KeyOp.read]
      [KeyOp.read, KeyOp.read] 17).2.2.2.2⟩

/-- Counterexample to C9 as stated: the variable is declared `const void*`,
not `const void* const`, so assigning to it is permitted; in the sample
address space a read before the assignment of the null pointer observes the
key's address 16, a read after it observes 0. -/
theorem key_assignment_changes_later_reads :
    observations (FLEX_LAYOUT_KEY sampleSpace)
        [KeyOp.read, KeyOp.assign 0, KeyOp.read] = [some 16, some 0] ∧
    (some 0 : Option Nat) ≠ some (sampleSpace.addressOf Obj.FLEX_LAYOUT_KEY) := by
  decide

/-- C9, amended. The key is initialised before any access: whatever reads and
assignments a program performs, no read observes an uninitialised value.  As
long as the program only reads the key (performs no assignment to the
variable), every read observes the key's own address.  The variable is
assignable: in any run, an assignment of `p` leaves what the reads before it
observe unchanged, and every read that follows it, up to the next assignment,
observes exactly `p`. -/
theorem key_initialised_and_read_stable (m : AddressSpace) (ops pre post : List KeyOp)
    (p : Nat) (hpost : ∀ op ∈ post, op = KeyOp.read) :
    (∀ x ∈ observations (FLEX_LAYOUT_KEY m) ops, x ≠ none) ∧
    ((∀ op ∈ ops, op = KeyOp.read) →
      ∀ x ∈ observations (FLEX_LAYOUT_KEY m) ops,
        x = some (m.addressOf Obj.FLEX_LAYOUT_KEY)) ∧
    ((∀ op ∈ ops, op = KeyOp.read) →
      observations (FLEX_LAYOUT_KEY m) ops =
        List.replicate ops.length (some (m.addressOf Obj.FLEX_LAYOUT_KEY))) ∧
    (∀ tail : List KeyOp,
      observations (FLEX_LAYOUT_KEY m) (pre ++ KeyOp.assign p :: tail) =
        observations (FLEX_LAYOUT_KEY m) pre ++ observations (some p) tail) ∧
    observations (FLEX_LAYOUT_KEY m) (pre ++ KeyOp.assign p :: post) =
      observations (FLEX_LAYOUT_KEY m) pre ++ List.replicate post.length (some p) := by
  refine ⟨observations_ne_none ops (FLEX_LAYOUT_KEY m) (by simp [FLEX_LAYOUT_KEY]),
    fun hops => observations_reads_only ops (FLEX_LAYOUT_KEY m) hops,
    fun hops => observations_reads_replicate ops (FLEX_LAYOUT_KEY m) hops,
    fun tail => observations_append_assign pre (FLEX_LAYOUT_KEY m) p tail, ?_⟩
  rw [observations_append_assign, observations_reads_replicate post (some p) hpost]

/-- Witness for the amended C9: in the sample address space three reads
observe no uninitialised value and all observe the key's address; in the run
read, assign 0, read, read the first read is unaffected and the two reads
after the assignment observe 0. -/
theorem key_initialised_and_read_stable_witness :
    (∀ op ∈ [KeyOp.read, KeyOp.read], op = KeyOp.read) ∧
    (∀ x ∈ observations (FLEX_LAYOUT_KEY sampleSpace) [KeyOp.read, KeyOp.read, KeyOp.read],
        x ≠ none) ∧
    (∀ x ∈ observations (FLEX_LAYOUT_KEY sampleSpace) [KeyOp.read, KeyOp.read, KeyOp.read],
        x = some (sampleSpace.addressOf Obj.FLEX_LAYOUT_KEY)) ∧
    observations (FLEX_LAYOUT_KEY sampleSpace)
        ([KeyOp.read] ++ KeyOp.assign 0 :: [KeyOp.read, KeyOp.read]) =
      observations (FLEX_LAYOUT_KEY sampleSpace) [KeyOp.read] ++
        List.replicate 2 (some 0) :=
  ⟨by decide,
   (key_initialised_and_read_stable sampleSpace [KeyOp.read, KeyOp.read, KeyOp.read]
      [KeyOp.read] [KeyOp.read, KeyOp.read] 0 (by decide)).1,
   (key_initialised_and_read_stable sampleSpace [KeyOp.read, KeyOp.read, KeyOp.read]
      [KeyOp.read] [KeyOp.read, KeyOp.read] 0 (by decide)).2.1 (by decide),
   (key_initialised_and_read_stable sampleSpace [KeyOp.read, KeyOp.read, KeyOp.read]
      [KeyOp.read] [KeyOp.read, KeyOp.read] 0 (by decide)).2.2.2.2⟩

/-! ## Independence of writes -/

theorem node_write_comm (s : FlexNodeStorage) (f g : NodeField) (a b : Int)
    (h : f ≠ g) : (s.write f a).write g b = (s.write g b).write f a := by
  cases f <;> cases g <;> first | exact absurd rfl h | rfl

theorem layout_write_comm (s : FlexLayoutStorage) (f g : LayoutField) (a b : Int)
    (h : f ≠ g) : (s.write f a).write g b = (s.write g b).write f a := by
  cases f <;> cases g <;> first | exact absurd rfl h | rfl

theorem style_write_comm (s : FlexStyleStorage) (f g : StyleField) (a b : Int)
    (h : f ≠ g) : (s.write f a).write g b = (s.write g b).write f a := by
  cases f <;> cases g <;> first | exact absurd rfl h | rfl

/-- C10. Member writes are order-independent and last-write-wins: for every
record of the three types, any two distinct members `f` and `g` and any
integers `a` and `b`, writing `a` to `f` then `b` to `g` yields the same
record as writing `b` to `g` then `a` to `f`; and writing `a` to `f` then `b`
to the same `f` yields the same record as writing only `b` to `f`. -/
theorem writes_commute_and_last_wins :
    (∀ (s : FlexNodeStorage) (f g : NodeField) (a b : Int),
        (f ≠ g → (s.write f a).write g b = (s.write g b).write f a) ∧
        (s.write f a).write f b = s.write f b) ∧
    (∀ (s : FlexLayoutStorage) (f g : LayoutField) (a b : Int),
        (f ≠ g → (s.write f a).write g b = (s.write g b).write f a) ∧
        (s.write f a).write f b = s.write f b) ∧
    (∀ (s : FlexStyleStorage) (f g : StyleField) (a b : Int),
        (f ≠ g → (s.write f a).write g b = (s.write g b).write f a) ∧
        (s.write f a).write f b = s.write f b) := by
  refine ⟨?_, ?_, ?_⟩
  · intro s f g a b
    exact ⟨node_write_comm s f g a b, by cases f <;> rfl⟩
  · intro s f g a b
    exact ⟨layout_write_comm s f g a b, by cases f <;> rfl⟩
  · intro s f g a b
    exact ⟨style_write_comm s f g a b, by cases f <;> rfl⟩

/-- Witness for C10: on the zero style record, writing the out-of-range 9 to
`alignSelf` and 2 to `justifyContent` in either order gives the same record,
and on the zero node record writing 0 then 5 to `isDirty` gives what writing
5 alone gives. -/
theorem writes_commute_and_last_wins_witness :
    (FlexStyleStorage.zero.write StyleField.alignSelf 9).write StyleField.justifyContent 2 =
      (FlexStyleStorage.zero.write StyleField.justifyContent 2).write StyleField.alignSelf 9 ∧
    (FlexNodeStorage.zero.write NodeField.isDirty 0).write NodeField.isDirty 5 =
      FlexNodeStorage.zero.write NodeField.isDirty 5 :=
  ⟨(writes_commute_and_last_wins.2.2 FlexStyleStorage.zero StyleField.alignSelf
      StyleField.justifyContent 9 2).1 (by decide),
   (writes_commute_and_last_wins.1 FlexNodeStorage.zero NodeField.isDirty
      NodeField.isDirty 0 5).2⟩

/-! ## Packed size of the records -/

theorem nextSlot_within_unit (prev : Option Slot) (w : Nat) (hw : w ≤ unitBits) :
    (nextSlot prev w).offset + (nextSlot prev w).width ≤ unitBits := by
  cases prev with
  | none => simpa [nextSlot] using hw
  | some p =>
    by_cases h : p.offset + p.width + w ≤ unitBits
    · simp [nextSlot, h]
    · simpa [nextSlot, h] using hw

theorem packFrom_within_unit (ws : List Nat) :
    ∀ prev : Option Slot, (∀ w ∈ ws, w ≤ unitBits) →
      ∀ s ∈ packFrom prev ws, s.offset + s.width ≤ unitBits := by
  induction ws with
  | nil =>
    intro prev _ s hs
    simp [packFrom] at hs
  | cons w rest ih =>
    intro prev hws s hs
    simp only [packFrom, List.mem_cons] at hs
    rcases hs with hs | hs
    · rw [hs]
      exact nextSlot_within_unit prev w (hws w (List.mem_cons_self _ _))
    · exact ih _ (fun x hx => hws x (List.mem_cons_of_mem _ hx)) s hs

/-- C11. Packed size of the style record: the ten `FlexStyleStorage` member
widths are 2, 2, 3, 3, 3, 3, 2, 2, 2, 2 and sum to 24 bits, which would fill 3
units of 8 bits; laid out in declaration order in 8-bit storage units with no
member straddling a unit boundary, the record occupies exactly 4 units (32
bits), not 3.  `FlexNodeStorage` (4 bits) and `FlexLayoutStorage` (3 bits)
each occupy exactly 1 unit. -/
theorem packed_size_of_records :
    styleWidths = [2, 2, 3, 3, 3, 3, 2, 2, 2, 2] ∧
    styleWidths.sum = 24 ∧
    unitsFilled styleWidths.sum = 3 ∧
    pack styleWidths =
      [⟨0, 0, 2⟩, ⟨0, 2, 2⟩, ⟨0, 4, 3⟩, ⟨1, 0, 3⟩, ⟨1, 3, 3⟩, ⟨2, 0, 3⟩, ⟨2, 3, 2⟩,
       ⟨2, 5, 2⟩, ⟨3, 0, 2⟩, ⟨3, 2, 2⟩] ∧
    (∀ s ∈ pack styleWidths, s.offset + s.width ≤ unitBits) ∧
    unitsOccupied styleWidths = 4 ∧
    unitsOccupied styleWidths * unitBits = 32 ∧
    unitsOccupied styleWidths ≠ unitsFilled styleWidths.sum ∧
    nodeWidths.sum = 4 ∧ unitsOccupied nodeWidths = 1 ∧
    layoutWidths.sum = 3 ∧ unitsOccupied layoutWidths = 1 := by
  refine ⟨by decide, by decide, by decide, by decide, ?_, by decide, by decide, by decide,
    by decide, by decide, by decide, by decide⟩
  exact packFrom_within_unit styleWidths none (by decide)

end FlexLayoutCore
